import Mathlib

/-
Verification of the AI-Guider backend orchestration layer.

Shallow embedding of:
  - src/backend/gemini_chat.py : APIKeyManager (credential pool) and
    chat_with_retry (quota-aware failover loop);
  - src/backend/server.py : request validation in the chat handlers and
    the estimated-chunk heuristic of the streaming handler;
  - src/backend/xtts_v2.py : the speaker-feature cache
    (get_conditioning_latents), the streaming generator (tts_stream) and
    the WAV encoding (encode_audio_to_wav, backed by the Python wave
    module).

Machine integers are modelled as Nat; byte values stay below 256 by
construction (explicit % 256 in the little-endian encoders).  Fallible
Python operations (list indexing, % by zero, file loading) are modelled
with Option / Except.
-/

/-! ## Credential pool (src/backend/gemini_chat.py, class APIKeyManager) -/

/-- One entry of api_keys.json: an object with a "name" and a "key" field. -/
structure Credential where
  name : String
  key : String
deriving DecidableEq

/-- The state of `APIKeyManager`: the loaded key list, the index of the
active key and the stored pool size (`self.total_keys = len(self.api_keys)`
at construction time). -/
structure APIKeyManager where
  api_keys : List Credential
  current_index : Nat
  total_keys : Nat
deriving DecidableEq

/-- The parsed contents of the backing api_keys.json file, as seen by
`APIKeyManager._load_api_keys`.  `invalidJson` models a file that
json.load rejects; `jsonWithoutApiKeys` models a JSON document without
the "api_keys" field; `jsonWithApiKeys ks` models a document whose
"api_keys" field is the list `ks`. -/
inductive ApiFileContents where
  | invalidJson
  | jsonWithoutApiKeys
  | jsonWithApiKeys (keys : List Credential)
deriving DecidableEq

/-- `APIKeyManager._load_api_keys`: json.load the file and return
`data["api_keys"]`.  A malformed file raises json.JSONDecodeError, a
document without the field raises KeyError; both are modelled as
`Except.error`. -/
def load_api_keys : ApiFileContents → Except String (List Credential)
  | .invalidJson => .error "json.JSONDecodeError"
  | .jsonWithoutApiKeys => .error "KeyError: api_keys"
  | .jsonWithApiKeys ks => .ok ks

/-- `APIKeyManager.__init__`: load the key list and set
`current_index = 0`, `total_keys = len(api_keys)`.  Note the source has
no emptiness check: an empty list constructs successfully. -/
def APIKeyManager.init (file : ApiFileContents) : Except String APIKeyManager :=
  (load_api_keys file).map (fun ks => ⟨ks, 0, ks.length⟩)

/-- The invariant that holds for every pool built from a nonempty key
list: the stored size matches the list and the active index is in
range. -/
def APIKeyManager.wf (km : APIKeyManager) : Prop :=
  km.total_keys = km.api_keys.length ∧ km.current_index < km.total_keys

instance (km : APIKeyManager) : Decidable km.wf := by
  unfold APIKeyManager.wf
  exact inferInstance

/-- `APIKeyManager.get_current_key`: `self.api_keys[self.current_index]["key"]`.
Python raises IndexError when the index is out of range, modelled as
`none`. -/
def APIKeyManager.get_current_key (km : APIKeyManager) : Option String :=
  (km.api_keys.get? km.current_index).map Credential.key

/-- `APIKeyManager.get_current_key_name`:
`self.api_keys[self.current_index]["name"]`. -/
def APIKeyManager.get_current_key_name (km : APIKeyManager) : Option String :=
  (km.api_keys.get? km.current_index).map Credential.name

/-- `APIKeyManager.rotate_key`:
`self.current_index = (self.current_index + 1) % self.total_keys`, then
logs `self.get_current_key_name()`.  On an empty pool Python raises
ZeroDivisionError at the `%`, and the log line raises IndexError when
the new index is out of range; both failure modes are modelled as
`none`. -/
def APIKeyManager.rotate_key (km : APIKeyManager) : Option APIKeyManager :=
  if km.total_keys = 0 then none
  else
    let km' : APIKeyManager :=
      { km with current_index := (km.current_index + 1) % km.total_keys }
    match km'.get_current_key_name with
    | none => none
    | some _ => some km'

/-- `n` consecutive `rotate_key()` calls (left to right). -/
def APIKeyManager.rotateN : Nat → APIKeyManager → Option APIKeyManager
  | 0, km => some km
  | n + 1, km => (km.rotate_key).bind (APIKeyManager.rotateN n)

theorem get_current_key_name_isSome_of_wf (km : APIKeyManager) (h : km.wf) :
    km.get_current_key_name.isSome := by
  obtain ⟨hlen, hidx⟩ := h
  have hlt : km.current_index < km.api_keys.length := hlen ▸ hidx
  unfold APIKeyManager.get_current_key_name
  rw [List.get?_eq_get hlt]
  rfl

theorem get_current_key_isSome_of_wf (km : APIKeyManager) (h : km.wf) :
    km.get_current_key.isSome := by
  obtain ⟨hlen, hidx⟩ := h
  have hlt : km.current_index < km.api_keys.length := hlen ▸ hidx
  unfold APIKeyManager.get_current_key
  rw [List.get?_eq_get hlt]
  rfl

/-- Under the invariant, one rotation succeeds, advances the index by
one modulo the pool size, and preserves the invariant. -/
theorem rotate_key_of_wf (km : APIKeyManager) (h : km.wf) :
    km.rotate_key =
      some { km with current_index := (km.current_index + 1) % km.total_keys } ∧
    APIKeyManager.wf
      { km with current_index := (km.current_index + 1) % km.total_keys } := by
  obtain ⟨hlen, hidx⟩ := h
  have hn : km.total_keys ≠ 0 := Nat.pos_iff_ne_zero.mp (Nat.lt_of_le_of_lt (Nat.zero_le _) hidx)
  have hlt : (km.current_index + 1) % km.total_keys < km.total_keys :=
    Nat.mod_lt _ (Nat.pos_of_ne_zero hn)
  have hwf' : APIKeyManager.wf
      { km with current_index := (km.current_index + 1) % km.total_keys } :=
    ⟨hlen, hlt⟩
  refine ⟨?_, hwf'⟩
  unfold APIKeyManager.rotate_key
  rw [if_neg hn]
  have hname := get_current_key_name_isSome_of_wf _ hwf'
  cases hn2 : APIKeyManager.get_current_key_name
      { km with current_index := (km.current_index + 1) % km.total_keys } with
  | none => rw [hn2] at hname; simp at hname
  | some s => simp [hn2]

/-- Under the invariant, `k` rotations succeed and land on index
`(current_index + k) % total_keys`. -/
theorem rotateN_of_wf (km : APIKeyManager) (h : km.wf) (k : Nat) :
    APIKeyManager.rotateN k km =
      some { km with current_index := (km.current_index + k) % km.total_keys } := by
  induction k generalizing km with
  | zero =>
    have h0 : (km.current_index + 0) % km.total_keys = km.current_index := by
      rw [Nat.add_zero]
      exact Nat.mod_eq_of_lt h.2
    simp only [APIKeyManager.rotateN, h0]
  | succ n ih =>
    obtain ⟨hrot, hwf'⟩ := rotate_key_of_wf km h
    unfold APIKeyManager.rotateN
    rw [hrot]
    show APIKeyManager.rotateN n
        { km with current_index := (km.current_index + 1) % km.total_keys } = _
    rw [ih _ hwf']
    congr 2
    show ((km.current_index + 1) % km.total_keys + n) % km.total_keys
        = (km.current_index + (n + 1)) % km.total_keys
    rw [Nat.mod_add_mod]
    congr 1
    omega

/-- C4: for a well-formed pool (any size `n ≥ 1`, any valid starting
index), one `rotate_key()` advances the index to
`(current_index + 1) % total_keys`, and `total_keys` consecutive
rotations restore the pool state exactly, so `get_current_key()` yields
the same credential as before. -/
theorem rotate_key_cycles (km : APIKeyManager) (hwf : km.wf) :
    km.rotate_key =
      some { km with current_index := (km.current_index + 1) % km.total_keys } ∧
    APIKeyManager.rotateN km.total_keys km = some km ∧
    (APIKeyManager.rotateN km.total_keys km).map APIKeyManager.get_current_key =
      some km.get_current_key := by
  have hcycle : APIKeyManager.rotateN km.total_keys km = some km := by
    rw [rotateN_of_wf km hwf]
    have : (km.current_index + km.total_keys) % km.total_keys = km.current_index := by
      rw [Nat.add_mod_right]
      exact Nat.mod_eq_of_lt hwf.2
    rw [this]
  exact ⟨(rotate_key_of_wf km hwf).1, hcycle, by rw [hcycle]; rfl⟩

theorem rotate_key_cycles_witness :
    APIKeyManager.wf ⟨[⟨"key1", "sk-1"⟩, ⟨"key2", "sk-2"⟩, ⟨"key3", "sk-3"⟩], 1, 3⟩ ∧
    (APIKeyManager.rotate_key ⟨[⟨"key1", "sk-1"⟩, ⟨"key2", "sk-2"⟩, ⟨"key3", "sk-3"⟩], 1, 3⟩ =
      some ⟨[⟨"key1", "sk-1"⟩, ⟨"key2", "sk-2"⟩, ⟨"key3", "sk-3"⟩], (1 + 1) % 3, 3⟩ ∧
    APIKeyManager.rotateN 3 ⟨[⟨"key1", "sk-1"⟩, ⟨"key2", "sk-2"⟩, ⟨"key3", "sk-3"⟩], 1, 3⟩ =
      some ⟨[⟨"key1", "sk-1"⟩, ⟨"key2", "sk-2"⟩, ⟨"key3", "sk-3"⟩], 1, 3⟩ ∧
    (APIKeyManager.rotateN 3 ⟨[⟨"key1", "sk-1"⟩, ⟨"key2", "sk-2"⟩, ⟨"key3", "sk-3"⟩], 1, 3⟩).map
        APIKeyManager.get_current_key =
      some (APIKeyManager.get_current_key
        ⟨[⟨"key1", "sk-1"⟩, ⟨"key2", "sk-2"⟩, ⟨"key3", "sk-3"⟩], 1, 3⟩)) :=
  ⟨by decide, rotate_key_cycles _ (by decide)⟩

/-- C5 counterexample: constructing the pool from a file whose
"api_keys" list is empty succeeds (no fatal configuration error is
raised), and on the resulting pool both `get_current_key()` and
`rotate_key()` fail.  This refutes both halves of the claim as stated. -/
theorem init_empty_pool_counterexample :
    APIKeyManager.init (.jsonWithApiKeys []) = .ok ⟨[], 0, 0⟩ ∧
    APIKeyManager.get_current_key ⟨[], 0, 0⟩ = none ∧
    APIKeyManager.rotate_key ⟨[], 0, 0⟩ = none := by
  refine ⟨rfl, rfl, ?_⟩
  unfold APIKeyManager.rotate_key
  simp

/-- C5 (amended): construction fails fast only when the backing file is
malformed (invalid JSON, or no "api_keys" field); an empty list
constructs successfully (and its accessors then fail).  Construction
from a nonempty list yields a well-formed pool, and on any well-formed
pool `get_current_key`, `get_current_key_name` and `rotate_key` never
fail, with rotation preserving well-formedness. -/
theorem init_and_accessors (ks : List Credential) (km : APIKeyManager)
    (hne : ks ≠ []) (hwf : km.wf) :
    APIKeyManager.init (.jsonWithApiKeys ks) = .ok ⟨ks, 0, ks.length⟩ ∧
    (∃ e, APIKeyManager.init .invalidJson = .error e) ∧
    (∃ e, APIKeyManager.init .jsonWithoutApiKeys = .error e) ∧
    APIKeyManager.wf ⟨ks, 0, ks.length⟩ ∧
    km.get_current_key.isSome ∧
    km.get_current_key_name.isSome ∧
    km.rotate_key.isSome ∧
    (∀ km', km.rotate_key = some km' → km'.wf) := by
  refine ⟨rfl, ⟨_, rfl⟩, ⟨_, rfl⟩, ⟨rfl, ?_⟩,
    get_current_key_isSome_of_wf km hwf,
    get_current_key_name_isSome_of_wf km hwf, ?_, ?_⟩
  · exact List.length_pos.mpr hne
  · rw [(rotate_key_of_wf km hwf).1]; rfl
  · intro km' hkm'
    rw [(rotate_key_of_wf km hwf).1] at hkm'
    cases hkm'
    exact (rotate_key_of_wf km hwf).2

theorem init_and_accessors_witness :
    ([⟨"key1", "sk-1"⟩] : List Credential) ≠ [] ∧
    APIKeyManager.wf ⟨[⟨"key1", "sk-1"⟩, ⟨"key2", "sk-2"⟩], 0, 2⟩ ∧
    (APIKeyManager.init (.jsonWithApiKeys [⟨"key1", "sk-1"⟩]) =
        .ok ⟨[⟨"key1", "sk-1"⟩], 0, ([⟨"key1", "sk-1"⟩] : List Credential).length⟩ ∧
    (∃ e, APIKeyManager.init .invalidJson = .error e) ∧
    (∃ e, APIKeyManager.init .jsonWithoutApiKeys = .error e) ∧
    APIKeyManager.wf ⟨[⟨"key1", "sk-1"⟩], 0, ([⟨"key1", "sk-1"⟩] : List Credential).length⟩ ∧
    (APIKeyManager.get_current_key ⟨[⟨"key1", "sk-1"⟩, ⟨"key2", "sk-2"⟩], 0, 2⟩).isSome ∧
    (APIKeyManager.get_current_key_name ⟨[⟨"key1", "sk-1"⟩, ⟨"key2", "sk-2"⟩], 0, 2⟩).isSome ∧
    (APIKeyManager.rotate_key ⟨[⟨"key1", "sk-1"⟩, ⟨"key2", "sk-2"⟩], 0, 2⟩).isSome ∧
    (∀ km', APIKeyManager.rotate_key ⟨[⟨"key1", "sk-1"⟩, ⟨"key2", "sk-2"⟩], 0, 2⟩ = some km' →
      km'.wf)) :=
  ⟨by decide, by decide, init_and_accessors _ _ (by decide) (by decide)⟩

/-! ## Estimated chunk count (src/backend/server.py, chat_and_speak_stream) -/

/-- The progress heuristic of the streaming chat handler:
`estimated_chunks = max(5, int(text_length / 10))` where
`text_length = len(ai_response)`.  Python float division followed by
`int(...)` truncation on nonnegative values is Nat floor division. -/
def estimated_chunks (ai_response : String) : Nat :=
  max 5 (ai_response.length / 10)

/-- C6: the estimated chunk count equals `max(5, len(replyText) / 10)`,
is at least 5 for every reply text (including the empty one), and is
monotonically non-decreasing in the length of the reply text. -/
theorem estimated_chunks_spec (s t : String) (h : s.length ≤ t.length) :
    estimated_chunks s = max 5 (s.length / 10) ∧
    5 ≤ estimated_chunks s ∧
    5 ≤ estimated_chunks "" ∧
    estimated_chunks s ≤ estimated_chunks t := by
  refine ⟨rfl, Nat.le_max_left _ _, Nat.le_max_left _ _, ?_⟩
  unfold estimated_chunks
  exact max_le_max (Nat.le_refl 5) (Nat.div_le_div_right h)

theorem estimated_chunks_spec_witness :
    ("" : String).length ≤ ("a sample reply from the model" : String).length ∧
    (estimated_chunks "" = max 5 (("" : String).length / 10) ∧
    5 ≤ estimated_chunks "" ∧
    5 ≤ estimated_chunks "" ∧
    estimated_chunks "" ≤ estimated_chunks "a sample reply from the model") :=
  ⟨by decide, estimated_chunks_spec _ _ (by decide)⟩

/-! ## Quota classification and failover loop
    (src/backend/gemini_chat.py, chat_with_retry) -/

/-- Bool test that `needle` is an initial segment of `hay` (character
lists). -/
def charsLeadWith : List Char → List Char → Bool
  | [], _ => true
  | _ :: _, [] => false
  | a :: as, b :: bs => a == b && charsLeadWith as bs

/-- Bool test that `needle` occurs contiguously inside `hay`
(character lists); models the Python `needle in hay` test on str. -/
def charsContain (needle : List Char) : List Char → Bool
  | [] => charsLeadWith needle []
  | b :: bs => charsLeadWith needle (b :: bs) || charsContain needle bs

/-- The quota/rate-limit classifier of `chat_with_retry`:
`error_msg = str(e).lower()` followed by the five substring tests
`"quota" / "rate" / "limit" / "429" / "resource" in error_msg`.
Lowercasing is applied per character (the needles are ASCII, where
Python `str.lower` and `Char.toLower` agree). -/
def is_quota_error (e : String) : Bool :=
  let error_msg : List Char := e.data.map Char.toLower
  charsContain "quota".data error_msg || charsContain "rate".data error_msg ||
  charsContain "limit".data error_msg || charsContain "429".data error_msg ||
  charsContain "resource".data error_msg

/-- The outcome of one backend attempt
(`create_gemini_model(api_key, config)` followed by
`chat_with_gemini(model, user_message)`): either the reply text or the
message of the raised exception. -/
inductive AttemptResult where
  | success (reply : String)
  | failure (msg : String)
deriving DecidableEq

/-- What `chat_with_retry` did on one loop iteration: the credential
index that was active for the attempt, the backend outcome, and whether
the iteration rotated the pool afterwards. -/
structure AttemptRecord where
  idx : Nat
  result : AttemptResult
  rotated : Bool
deriving DecidableEq

/-- The result of a whole `chat_with_retry` call.  `reply` is a normal
return; `raised` is the `raise e` of a non-quota failure; `exhausted`
is the final `raise Exception("所有 API keys 都已嘗試失敗。最後錯誤: ...")`
carrying the last underlying error; `poolError` models an exception
escaping from `rotate_key` itself (only reachable on an ill-formed
pool). -/
inductive ChatOutcome where
  | reply (text : String)
  | raised (msg : String)
  | exhausted (last_error : Option String)
  | poolError
deriving DecidableEq

/-- The retry loop of `chat_with_retry`
(`for attempt in range(max_retries): ...`), recursing on the number of
remaining iterations.  `backend k` is the outcome of the backend call
performed on loop iteration `k`.  The returned list records the
iterations that actually ran, in order. -/
def chat_loop (backend : Nat → AttemptResult) :
    Nat → Nat → APIKeyManager → Option String → ChatOutcome × List AttemptRecord
  | _, 0, _, last_error => (.exhausted last_error, [])
  | attempt, remaining + 1, km, _ =>
    match backend attempt with
    | .success reply => (.reply reply, [⟨km.current_index, .success reply, false⟩])
    | .failure msg =>
      if is_quota_error msg then
        match km.rotate_key with
        | some km' =>
          let rest := chat_loop backend (attempt + 1) remaining km' (some msg)
          (rest.1, ⟨km.current_index, .failure msg, true⟩ :: rest.2)
        | none => (.poolError, [⟨km.current_index, .failure msg, false⟩])
      else
        (.raised msg, [⟨km.current_index, .failure msg, false⟩])

/-- `chat_with_retry(key_manager, config, user_message, max_retries)`.
`none` for `max_retries` selects the default
`max_retries = key_manager.total_keys`.  `config` and `user_message`
only feed the backend call and are absorbed into `backend`. -/
def chat_with_retry (backend : Nat → AttemptResult) (km : APIKeyManager)
    (max_retries : Option Nat) : ChatOutcome × List AttemptRecord :=
  let retries := match max_retries with
    | none => km.total_keys
    | some m => m
  chat_loop backend 0 retries km none

/-- Full characterization of one `chat_with_retry` loop run under the
pool invariant: the trace is bounded by the iteration budget, at least
one iteration runs when the budget is positive, and each record shows
the key index advancing cyclically, the backend result of that
iteration, and the terminate/rotate behaviour of the source: success
and non-quota failures end the call at once without rotation, quota
failures rotate and continue exactly while budget remains. -/
theorem chat_loop_spec (backend : Nat → AttemptResult) (r : Nat) (a : Nat)
    (km : APIKeyManager) (le : Option String) (out : ChatOutcome)
    (t : List AttemptRecord) (hwf : km.wf)
    (heq : chat_loop backend a r km le = (out, t)) :
    t.length ≤ r ∧
    (0 < r → 0 < t.length) ∧
    ∀ k (hk : k < t.length),
      (t.get ⟨k, hk⟩).idx = (km.current_index + k) % km.total_keys ∧
      (t.get ⟨k, hk⟩).result = backend (a + k) ∧
      (∀ reply, (t.get ⟨k, hk⟩).result = .success reply →
        (t.get ⟨k, hk⟩).rotated = false ∧ t.length = k + 1 ∧ out = .reply reply) ∧
      (∀ msg, (t.get ⟨k, hk⟩).result = .failure msg → is_quota_error msg = false →
        (t.get ⟨k, hk⟩).rotated = false ∧ t.length = k + 1 ∧ out = .raised msg) ∧
      (∀ msg, (t.get ⟨k, hk⟩).result = .failure msg → is_quota_error msg = true →
        (t.get ⟨k, hk⟩).rotated = true ∧ (k + 1 < t.length ↔ k + 1 < r)) := by
  induction r generalizing a km le out t with
  | zero =>
    simp only [chat_loop] at heq
    injection heq with h1 h2
    subst h1
    subst h2
    refine ⟨Nat.le_refl 0, by omega, ?_⟩
    intro k hk
    simp at hk
  | succ n ih =>
    cases hb : backend a with
    | success reply =>
      simp only [chat_loop, hb] at heq
      injection heq with h1 h2
      subst h1
      subst h2
      refine ⟨by simp, by simp, ?_⟩
      intro k hk
      have hk0 : k = 0 := by simp at hk; omega
      subst hk0
      refine ⟨?_, ?_, ?_, ?_, ?_⟩
      · show km.current_index = (km.current_index + 0) % km.total_keys
        rw [Nat.add_zero, Nat.mod_eq_of_lt hwf.2]
      · show AttemptResult.success reply = backend (a + 0)
        rw [Nat.add_zero, hb]
      · intro reply' hr
        injection hr with h
        subst h
        exact ⟨rfl, rfl, rfl⟩
      · intro msg hr
        exact absurd hr (by simp)
      · intro msg hr
        exact absurd hr (by simp)
    | failure msg =>
      cases hq : is_quota_error msg with
      | false =>
        simp only [chat_loop, hb, hq, Bool.false_eq_true, if_false] at heq
        injection heq with h1 h2
        subst h1
        subst h2
        refine ⟨by simp, by simp, ?_⟩
        intro k hk
        have hk0 : k = 0 := by simp at hk; omega
        subst hk0
        refine ⟨?_, ?_, ?_, ?_, ?_⟩
        · show km.current_index = (km.current_index + 0) % km.total_keys
          rw [Nat.add_zero, Nat.mod_eq_of_lt hwf.2]
        · show AttemptResult.failure msg = backend (a + 0)
          rw [Nat.add_zero, hb]
        · intro reply hr
          exact absurd hr (by simp)
        · intro msg' hr _
          injection hr with h
          subst h
          exact ⟨rfl, rfl, rfl⟩
        · intro msg' hr hq'
          injection hr with h
          subst h
          rw [hq] at hq'
          exact absurd hq' (by simp)
      | true =>
        obtain ⟨hrot, hwf2⟩ := rotate_key_of_wf km hwf
        simp only [chat_loop, hb, hq, if_true, hrot] at heq
        injection heq with h1 h2
        subst h1
        subst h2
        obtain ⟨hl, hne, hrec⟩ := ih (a + 1)
          { km with current_index := (km.current_index + 1) % km.total_keys }
          (some msg)
          (chat_loop backend (a + 1) n
            { km with current_index := (km.current_index + 1) % km.total_keys }
            (some msg)).1
          (chat_loop backend (a + 1) n
            { km with current_index := (km.current_index + 1) % km.total_keys }
            (some msg)).2
          hwf2 rfl
        refine ⟨by simp; omega, by simp, ?_⟩
        intro k hk
        cases k with
        | zero =>
          refine ⟨?_, ?_, ?_, ?_, ?_⟩
          · show km.current_index = (km.current_index + 0) % km.total_keys
            rw [Nat.add_zero, Nat.mod_eq_of_lt hwf.2]
          · show AttemptResult.failure msg = backend (a + 0)
            rw [Nat.add_zero, hb]
          · intro reply hr
            exact absurd hr (by simp)
          · intro msg' hr hq'
            injection hr with h
            subst h
            rw [hq] at hq'
            exact absurd hq' (by simp)
          · intro msg' hr _
            refine ⟨rfl, ?_⟩
            simp only [List.length_cons]
            omega
        | succ j =>
          have hj : j < (chat_loop backend (a + 1) n
              { km with current_index := (km.current_index + 1) % km.total_keys }
              (some msg)).2.length := by
            simp only [List.length_cons] at hk
            omega
          obtain ⟨hidx, hres, hsucc, hnq, hqc⟩ := hrec j hj
          have hget : (List.get (⟨km.current_index, .failure msg, true⟩ ::
              (chat_loop backend (a + 1) n
                { km with current_index := (km.current_index + 1) % km.total_keys }
                (some msg)).2) ⟨j + 1, hk⟩) =
              (chat_loop backend (a + 1) n
                { km with current_index := (km.current_index + 1) % km.total_keys }
                (some msg)).2.get ⟨j, hj⟩ := rfl
          rw [hget]
          refine ⟨?_, ?_, ?_, ?_, ?_⟩
          · rw [hidx]
            show ((km.current_index + 1) % km.total_keys + j) % km.total_keys
              = (km.current_index + (j + 1)) % km.total_keys
            rw [Nat.mod_add_mod]
            congr 1
            omega
          · rw [hres]
            congr 1
            omega
          · intro reply hr
            obtain ⟨h1, h2, h3⟩ := hsucc reply hr
            refine ⟨h1, ?_, h3⟩
            simp only [List.length_cons]
            omega
          · intro msg' hr hq'
            obtain ⟨h1, h2, h3⟩ := hnq msg' hr hq'
            refine ⟨h1, ?_, h3⟩
            simp only [List.length_cons]
            omega
          · intro msg' hr hq'
            obtain ⟨h1, h2⟩ := hqc msg' hr hq'
            refine ⟨h1, ?_⟩
            simp only [List.length_cons]
            omega

/-- A concrete two-credential pool used by witnesses. -/
def demoPool : APIKeyManager :=
  ⟨[⟨"key1", "sk-1"⟩, ⟨"key2", "sk-2"⟩], 0, 2⟩

/-- A concrete single-credential pool used by witnesses and
counterexamples. -/
def soloPool : APIKeyManager :=
  ⟨[⟨"key1", "sk-1"⟩], 0, 1⟩

/-- A backend that reports a quota failure on every attempt. -/
def demoQuotaBackend : Nat → AttemptResult :=
  fun _ => .failure "quota exceeded"

/-- A backend that reports a quota failure on the first attempt and
succeeds on every later one. -/
def demoMixedBackend : Nat → AttemptResult :=
  fun k => if k = 0 then .failure "429" else .success "hello"

/-- C1: with the default retry setting (`max_retries = None`, hence
`key_manager.total_keys`), one `chat_with_retry` call on a well-formed
pool of `n ≥ 1` credentials runs at most `n` backend attempts, the
attempt `k` uses credential index `(start + k) % n` (each continuing
attempt is preceded by exactly one rotation), and no credential index
occurs twice in the attempt trace. -/
theorem chat_with_retry_attempt_bound (backend : Nat → AttemptResult)
    (km : APIKeyManager) (hwf : km.wf) :
    (chat_with_retry backend km none).2.length ≤ km.total_keys ∧
    (∀ k (hk : k < (chat_with_retry backend km none).2.length),
      ((chat_with_retry backend km none).2.get ⟨k, hk⟩).idx =
        (km.current_index + k) % km.total_keys) ∧
    ((chat_with_retry backend km none).2.map AttemptRecord.idx).Nodup := by
  obtain ⟨hlen, _, hrec⟩ := chat_loop_spec backend km.total_keys 0 km none
    (chat_with_retry backend km none).1 (chat_with_retry backend km none).2 hwf rfl
  refine ⟨hlen, fun k hk => (hrec k hk).1, ?_⟩
  rw [List.nodup_iff_injective_getElem]
  rintro ⟨k1, h1⟩ ⟨k2, h2⟩ hg
  simp only [List.getElem_map] at hg
  have h1' : k1 < (chat_with_retry backend km none).2.length := by
    simpa using h1
  have h2' : k2 < (chat_with_retry backend km none).2.length := by
    simpa using h2
  have e1 := (hrec k1 h1').1
  have e2 := (hrec k2 h2').1
  rw [List.get_eq_getElem] at e1 e2
  rw [e1, e2] at hg
  have hmod : k1 % km.total_keys = k2 % km.total_keys :=
    Nat.ModEq.add_left_cancel (Nat.ModEq.refl km.current_index) hg
  have hk1 : k1 < km.total_keys := Nat.lt_of_lt_of_le h1' hlen
  have hk2 : k2 < km.total_keys := Nat.lt_of_lt_of_le h2' hlen
  rw [Nat.mod_eq_of_lt hk1, Nat.mod_eq_of_lt hk2] at hmod
  exact Fin.ext hmod

theorem chat_with_retry_attempt_bound_witness :
    APIKeyManager.wf demoPool ∧
    ((chat_with_retry demoQuotaBackend demoPool none).2.length ≤ demoPool.total_keys ∧
    (∀ k (hk : k < (chat_with_retry demoQuotaBackend demoPool none).2.length),
      ((chat_with_retry demoQuotaBackend demoPool none).2.get ⟨k, hk⟩).idx =
        (demoPool.current_index + k) % demoPool.total_keys) ∧
    ((chat_with_retry demoQuotaBackend demoPool none).2.map AttemptRecord.idx).Nodup) :=
  ⟨by decide, chat_with_retry_attempt_bound demoQuotaBackend demoPool (by decide)⟩

/-- C2 counterexample: on a single-credential pool, the only allowed
attempt fails with a quota-class error ("429 rate limit"); the pool is
rotated, yet no further attempt occurs (the trace has length 1), so a
quota-class failure does not always lead to a further attempt. -/
theorem quota_failure_without_further_attempt :
    is_quota_error "429 rate limit" = true ∧
    (chat_with_retry (fun _ => .failure "429 rate limit") soloPool none).2 =
      [⟨0, .failure "429 rate limit", true⟩] ∧
    ¬ 1 < (chat_with_retry (fun _ => .failure "429 rate limit") soloPool none).2.length := by
  decide

/-- C2 (amended): within one default `chat_with_retry` invocation on a
well-formed pool of `n` credentials, a successful attempt returns the
reply immediately with no rotation; a non-quota failure on attempt `k`
is re-raised immediately with no rotation and attempts `k+1..n` never
occur; a quota-class failure on attempt `k` rotates the credential, and
a further attempt occurs if and only if `k + 1 < n` (on the last
allowed attempt the rotation happens but no further attempt follows). -/
theorem chat_with_retry_rotation_policy (backend : Nat → AttemptResult)
    (km : APIKeyManager) (hwf : km.wf) :
    ∀ k (hk : k < (chat_with_retry backend km none).2.length),
      (∀ reply,
        ((chat_with_retry backend km none).2.get ⟨k, hk⟩).result = .success reply →
        ((chat_with_retry backend km none).2.get ⟨k, hk⟩).rotated = false ∧
        (chat_with_retry backend km none).2.length = k + 1 ∧
        (chat_with_retry backend km none).1 = .reply reply) ∧
      (∀ msg,
        ((chat_with_retry backend km none).2.get ⟨k, hk⟩).result = .failure msg →
        is_quota_error msg = false →
        ((chat_with_retry backend km none).2.get ⟨k, hk⟩).rotated = false ∧
        (chat_with_retry backend km none).2.length = k + 1 ∧
        (chat_with_retry backend km none).1 = .raised msg) ∧
      (∀ msg,
        ((chat_with_retry backend km none).2.get ⟨k, hk⟩).result = .failure msg →
        is_quota_error msg = true →
        ((chat_with_retry backend km none).2.get ⟨k, hk⟩).rotated = true ∧
        (k + 1 < (chat_with_retry backend km none).2.length ↔ k + 1 < km.total_keys)) := by
  obtain ⟨_, _, hrec⟩ := chat_loop_spec backend km.total_keys 0 km none
    (chat_with_retry backend km none).1 (chat_with_retry backend km none).2 hwf rfl
  intro k hk
  exact ⟨(hrec k hk).2.2.1, (hrec k hk).2.2.2.1, (hrec k hk).2.2.2.2⟩

theorem chat_with_retry_rotation_policy_witness :
    APIKeyManager.wf demoPool ∧
    (((chat_with_retry demoMixedBackend demoPool none).2.get ⟨0, by decide⟩).result =
      .failure "429" ∧
    is_quota_error "429" = true ∧
    (((chat_with_retry demoMixedBackend demoPool none).2.get ⟨0, by decide⟩).rotated = true ∧
    (0 + 1 < (chat_with_retry demoMixedBackend demoPool none).2.length ↔
      0 + 1 < demoPool.total_keys))) :=
  ⟨by decide, by decide, by decide,
    ((chat_with_retry_rotation_policy demoMixedBackend demoPool (by decide))
      0 (by decide)).2.2 "429" (by decide) (by decide)⟩

/-- Helper for C3: if every iteration within the budget fails with a
quota-class error, the loop ends with the exhaustion error carrying the
message of the final iteration, after running the whole budget. -/
theorem chat_loop_all_quota (backend : Nat → AttemptResult) (msgs : Nat → String)
    (r : Nat) :
    ∀ (a : Nat) (km : APIKeyManager) (le : Option String), km.wf → 0 < r →
    (∀ k, k < r → backend (a + k) = .failure (msgs (a + k)) ∧
      is_quota_error (msgs (a + k)) = true) →
    (chat_loop backend a r km le).1 = .exhausted (some (msgs (a + r - 1))) ∧
    (chat_loop backend a r km le).2.length = r := by
  induction r with
  | zero =>
    intro a km le _ h0 _
    exact absurd h0 (Nat.lt_irrefl 0)
  | succ n ih =>
    intro a km le hwf _ hall
    have hb : backend a = .failure (msgs a) := by
      have h := (hall 0 (Nat.succ_pos n)).1
      rwa [Nat.add_zero] at h
    have hq : is_quota_error (msgs a) = true := by
      have h := (hall 0 (Nat.succ_pos n)).2
      rwa [Nat.add_zero] at h
    obtain ⟨hrot, hwf2⟩ := rotate_key_of_wf km hwf
    have hstep : chat_loop backend a (n + 1) km le =
        ((chat_loop backend (a + 1) n
            { km with current_index := (km.current_index + 1) % km.total_keys }
            (some (msgs a))).1,
          ⟨km.current_index, .failure (msgs a), true⟩ ::
            (chat_loop backend (a + 1) n
              { km with current_index := (km.current_index + 1) % km.total_keys }
              (some (msgs a))).2) := by
      simp only [chat_loop, hb, hq, if_true, hrot]
    rw [hstep]
    cases n with
    | zero =>
      have ha : a + 1 - 1 = a := by omega
      rw [ha]
      exact ⟨by simp [chat_loop], by simp [chat_loop]⟩
    | succ m =>
      have hall' : ∀ k, k < m + 1 →
          backend (a + 1 + k) = .failure (msgs (a + 1 + k)) ∧
          is_quota_error (msgs (a + 1 + k)) = true := by
        intro k hk
        have h := hall (k + 1) (by omega)
        have he : a + (k + 1) = a + 1 + k := by omega
        rwa [he] at h
      obtain ⟨ho, hl⟩ := ih (a + 1)
        { km with current_index := (km.current_index + 1) % km.total_keys }
        (some (msgs a)) hwf2 (Nat.succ_pos m) hall'
      have he : a + 1 + (m + 1) - 1 = a + (m + 1 + 1) - 1 := by omega
      rw [he] at ho
      constructor
      · exact ho
      · show (chat_loop backend (a + 1) (m + 1)
            { km with current_index := (km.current_index + 1) % km.total_keys }
            (some (msgs a))).2.length + 1 = m + 1 + 1
        rw [hl]

/-- C3: if every one of the allowed attempts of a default
`chat_with_retry` call fails with a quota-class error, the call raises
the all-credentials-exhausted error carrying the error of the last
attempt (attempt `n - 1`), rather than returning a reply or re-raising
the quota error itself, and all `n` attempts are made. -/
theorem chat_with_retry_exhaustion (backend : Nat → AttemptResult)
    (msgs : Nat → String) (km : APIKeyManager) (hwf : km.wf)
    (hall : ∀ k, k < km.total_keys →
      backend k = .failure (msgs k) ∧ is_quota_error (msgs k) = true) :
    (chat_with_retry backend km none).1 =
      .exhausted (some (msgs (km.total_keys - 1))) ∧
    (chat_with_retry backend km none).2.length = km.total_keys := by
  have hpos : 0 < km.total_keys := Nat.lt_of_le_of_lt (Nat.zero_le _) hwf.2
  have hall' : ∀ k, k < km.total_keys →
      backend (0 + k) = .failure (msgs (0 + k)) ∧
      is_quota_error (msgs (0 + k)) = true := by
    intro k hk
    rw [Nat.zero_add]
    exact hall k hk
  obtain ⟨ho, hl⟩ := chat_loop_all_quota backend msgs km.total_keys 0 km none
    hwf hpos hall'
  rw [Nat.zero_add] at ho
  exact ⟨ho, hl⟩

theorem chat_with_retry_exhaustion_witness :
    APIKeyManager.wf demoPool ∧
    ((chat_with_retry demoQuotaBackend demoPool none).1 =
      .exhausted (some ((fun _ => "quota exceeded") (demoPool.total_keys - 1))) ∧
    (chat_with_retry demoQuotaBackend demoPool none).2.length = demoPool.total_keys) :=
  ⟨by decide, chat_with_retry_exhaustion demoQuotaBackend (fun _ => "quota exceeded")
    demoPool (by decide)
    (by
      intro k _
      refine ⟨rfl, ?_⟩
      show is_quota_error "quota exceeded" = true
      decide)⟩

/-! ## WAV encoding and streaming generator
    (src/backend/xtts_v2.py, encode_audio_to_wav and tts_stream) -/

/-- Two little-endian bytes of a 16-bit field. -/
def le_bytes16 (n : Nat) : List Nat :=
  [n % 256, n / 256 % 256]

/-- Four little-endian bytes of a 32-bit field. -/
def le_bytes32 (n : Nat) : List Nat :=
  [n % 256, n / 256 % 256, n / 65536 % 256, n / 16777216 % 256]

/-- The byte values of an ASCII tag. -/
def ascii_bytes (s : String) : List Nat :=
  s.data.map Char.toNat

/-- `XTTSStreamingTTS.encode_audio_to_wav(audio_data, sample_rate,
sample_width, channels)`: the bytes produced by the Python `wave`
module writer on a BytesIO buffer — a RIFF/WAVE header (PCM format tag
1, the given channel count, sample rate, byte rate, block align and
bits per sample, and a data chunk sized by the written bytes) followed
by the audio payload. -/
def encode_audio_to_wav (audio_data : List Nat)
    (sample_rate sample_width channels : Nat) : List Nat :=
  ascii_bytes "RIFF" ++ le_bytes32 (36 + audio_data.length) ++ ascii_bytes "WAVE" ++
  ascii_bytes "fmt " ++ le_bytes32 16 ++ le_bytes16 1 ++ le_bytes16 channels ++
  le_bytes32 sample_rate ++ le_bytes32 (sample_rate * channels * sample_width) ++
  le_bytes16 (channels * sample_width) ++ le_bytes16 (sample_width * 8) ++
  ascii_bytes "data" ++ le_bytes32 audio_data.length ++ audio_data

/-- The enumerated loop body of `XTTSStreamingTTS.tts_stream`: on
iteration `i`, the chunk is post-processed; iteration `0` additionally
yields the WAV header (`encode_audio_to_wav(b"", sample_rate=24000)`)
first when `add_wav_header` is set.  `postprocess` stands for
`self.postprocess(chunk).tobytes()` (the float-tensor internals are
opaque to the orchestration layer). -/
def tts_stream_go {α : Type} (postprocess : α → List Nat) (add_wav_header : Bool) :
    Nat → List α → List (List Nat)
  | _, [] => []
  | i, c :: rest =>
    let chunk_bytes := postprocess c
    if i == 0 && add_wav_header then
      encode_audio_to_wav [] 24000 2 1 :: chunk_bytes ::
        tts_stream_go postprocess add_wav_header (i + 1) rest
    else
      chunk_bytes :: tts_stream_go postprocess add_wav_header (i + 1) rest

/-- `XTTSStreamingTTS.tts_stream`: the sequence of byte strings yielded
for a given sequence of raw chunks produced by
`self.model.inference_stream(...)`. -/
def tts_stream {α : Type} (postprocess : α → List Nat) (add_wav_header : Bool)
    (chunks : List α) : List (List Nat) :=
  tts_stream_go postprocess add_wav_header 0 chunks

theorem tts_stream_go_pos {α : Type} (postprocess : α → List Nat)
    (add_wav_header : Bool) (l : List α) :
    ∀ i, tts_stream_go postprocess add_wav_header (i + 1) l = l.map postprocess := by
  induction l with
  | nil => intro i; rfl
  | cons c rest ih =>
    intro i
    simp only [tts_stream_go, List.map]
    rw [ih (i + 1)]
    simp

/-- C7 counterexample: for the empty chunk sequence, the concatenated
output of `tts_stream` with `add_wav_header=True` is empty, not the
header — the header is only emitted together with the first chunk, so
the claimed equality fails at `k = 0`. -/
theorem tts_stream_empty_not_header :
    ¬ ((tts_stream (fun c : List Nat => c) true []).flatten =
      encode_audio_to_wav [] 24000 2 1 ++
        (([] : List (List Nat)).map (fun c : List Nat => c)).flatten) := by
  decide

/-- C7 (amended): for every nonempty sequence of raw PCM chunks
`[c1, ..., ck]` produced by the synthesis iterator, the concatenation
of the bytes yielded by `tts_stream` with `add_wav_header=True` equals
`header ++ post(c1) ++ ... ++ post(ck)`: the header once, then each
post-processed chunk exactly once, in production order, none dropped,
duplicated or reordered.  (For the empty sequence the output is empty,
without the header.) -/
theorem tts_stream_concat (α : Type) (postprocess : α → List Nat)
    (chunks : List α) (hne : chunks ≠ []) :
    (tts_stream postprocess true chunks).flatten =
      encode_audio_to_wav [] 24000 2 1 ++ (chunks.map postprocess).flatten := by
  cases chunks with
  | nil => exact absurd rfl hne
  | cons c rest =>
    show (tts_stream_go postprocess true 0 (c :: rest)).flatten = _
    simp only [tts_stream_go]
    rw [tts_stream_go_pos postprocess true rest 0]
    simp [List.flatten]

theorem tts_stream_concat_witness :
    ([[1, 2], [3]] : List (List Nat)) ≠ [] ∧
    (tts_stream (fun c : List Nat => c) true [[1, 2], [3]]).flatten =
      encode_audio_to_wav [] 24000 2 1 ++
        (([[1, 2], [3]] : List (List Nat)).map (fun c : List Nat => c)).flatten :=
  ⟨by decide, tts_stream_concat (List Nat) (fun c => c) [[1, 2], [3]] (by decide)⟩

/-- C10: the streaming header (`encode_audio_to_wav` of the empty byte
string at 24000 Hz, 2-byte samples, 1 channel) is exactly this fixed
44-byte RIFF/WAVE header: RIFF size 36, PCM format tag 1, 1 channel,
24000 Hz, byte rate 48000, block align 2, 16 bits per sample, and a
data-chunk length field of 0 (the last four bytes) — zero, not a
sentinel covering the payload.  Moreover the header is only emitted
together with a first chunk: on an iterator yielding zero chunks,
`tts_stream` yields nothing at all. -/
theorem wav_header_fixed_bytes :
    encode_audio_to_wav [] 24000 2 1 =
      [82, 73, 70, 70, 36, 0, 0, 0, 87, 65, 86, 69,
       102, 109, 116, 32, 16, 0, 0, 0, 1, 0, 1, 0,
       192, 93, 0, 0, 128, 187, 0, 0, 2, 0, 16, 0,
       100, 97, 116, 97, 0, 0, 0, 0] ∧
    (encode_audio_to_wav [] 24000 2 1).length = 44 ∧
    (∀ (α : Type) (postprocess : α → List Nat),
      tts_stream postprocess true ([] : List α) = []) :=
  ⟨by decide, by decide, fun _ _ => rfl⟩

/-! ## Speaker-feature cache
    (src/backend/xtts_v2.py, XTTSStreamingTTS.get_conditioning_latents) -/

/-- `XTTSStreamingTTS.get_conditioning_latents(speaker_wav, use_cache)`
acting on the `_speaker_cache` dict (modelled as an association list
with first-match lookup; Python dict assignment is modelled by
prepending, which shadows any older entry).  `abspath` models
`os.path.abspath`, `extract` models the expensive
`self.model.get_conditioning_latents(speaker_wav)` call, and the final
component counts how many extraction calls this invocation performed
(0 or 1). -/
def get_conditioning_latents {V : Type} (extract : String → V)
    (abspath : String → String) (speaker_cache : List (String × V))
    (speaker_wav : String) (use_cache : Bool) :
    V × List (String × V) × Nat :=
  let cache_key := abspath speaker_wav
  match (if use_cache then speaker_cache.lookup cache_key else none) with
  | some cached => (cached, speaker_cache, 0)
  | none =>
    let v := extract speaker_wav
    (v, if use_cache then (cache_key, v) :: speaker_cache else speaker_cache, 1)

/-- C8: with `use_cache=True`, two consecutive calls keyed by the same
absolute speaker-wav path perform at most one extraction in total and
return the same cached value (here: the second call of `w1` after the
first); and a call with a distinct key extracts independently for its
own key (here: `w2`, uncached, extracts exactly once and returns its
own features regardless of the `w1` calls). -/
theorem get_conditioning_latents_cache (V : Type) (extract : String → V)
    (abspath : String → String) (cache : List (String × V)) (w1 w2 : String)
    (hdiff : abspath w1 ≠ abspath w2)
    (h2 : cache.lookup (abspath w2) = none) :
    (get_conditioning_latents extract abspath cache w1 true).2.2 +
      (get_conditioning_latents extract abspath
        (get_conditioning_latents extract abspath cache w1 true).2.1 w1 true).2.2 ≤ 1 ∧
    (get_conditioning_latents extract abspath
        (get_conditioning_latents extract abspath cache w1 true).2.1 w1 true).1 =
      (get_conditioning_latents extract abspath cache w1 true).1 ∧
    (get_conditioning_latents extract abspath
        (get_conditioning_latents extract abspath
          (get_conditioning_latents extract abspath cache w1 true).2.1 w1 true).2.1
        w2 true).2.2 = 1 ∧
    (get_conditioning_latents extract abspath
        (get_conditioning_latents extract abspath
          (get_conditioning_latents extract abspath cache w1 true).2.1 w1 true).2.1
        w2 true).1 = extract w2 := by
  have hne : (abspath w2 == abspath w1) = false := by
    rw [beq_eq_false_iff_ne]
    exact fun h => hdiff h.symm
  cases h1 : cache.lookup (abspath w1) with
  | some v =>
    have e1 : get_conditioning_latents extract abspath cache w1 true = (v, cache, 0) := by
      simp [get_conditioning_latents, h1]
    rw [e1]
    have e3 : get_conditioning_latents extract abspath cache w2 true =
        (extract w2, (abspath w2, extract w2) :: cache, 1) := by
      simp [get_conditioning_latents, h2]
    simp [e1, e3]
  | none =>
    have e1 : get_conditioning_latents extract abspath cache w1 true =
        (extract w1, (abspath w1, extract w1) :: cache, 1) := by
      simp [get_conditioning_latents, h1]
    rw [e1]
    have e2 : get_conditioning_latents extract abspath
        ((abspath w1, extract w1) :: cache) w1 true =
        (extract w1, (abspath w1, extract w1) :: cache, 0) := by
      simp [get_conditioning_latents, List.lookup]
    rw [e2]
    have e3 : get_conditioning_latents extract abspath
        ((abspath w1, extract w1) :: cache) w2 true =
        (extract w2, (abspath w2, extract w2) :: (abspath w1, extract w1) :: cache, 1) := by
      simp [get_conditioning_latents, List.lookup, hne, h2]
    simp [e3]

theorem get_conditioning_latents_cache_witness :
    ((fun s : String => s) "a" ≠ (fun s : String => s) "bb") ∧
    (([] : List (String × Nat)).lookup ((fun s : String => s) "bb") = none) ∧
    ((get_conditioning_latents String.length (fun s => s) [] "a" true).2.2 +
      (get_conditioning_latents String.length (fun s => s)
        (get_conditioning_latents String.length (fun s => s) [] "a" true).2.1
        "a" true).2.2 ≤ 1 ∧
    (get_conditioning_latents String.length (fun s => s)
        (get_conditioning_latents String.length (fun s => s) [] "a" true).2.1
        "a" true).1 =
      (get_conditioning_latents String.length (fun s => s) [] "a" true).1 ∧
    (get_conditioning_latents String.length (fun s => s)
        (get_conditioning_latents String.length (fun s => s)
          (get_conditioning_latents String.length (fun s => s) [] "a" true).2.1
          "a" true).2.1 "bb" true).2.2 = 1 ∧
    (get_conditioning_latents String.length (fun s => s)
        (get_conditioning_latents String.length (fun s => s)
          (get_conditioning_latents String.length (fun s => s) [] "a" true).2.1
          "a" true).2.1 "bb" true).1 = String.length "bb") :=
  ⟨by decide, rfl,
    get_conditioning_latents_cache Nat String.length (fun s => s) [] "a" "bb"
      (by decide) rfl⟩

/-! ## Request validation in the chat handlers
    (src/backend/server.py, chat_and_speak / chat_and_speak_json /
    chat_and_speak_stream) -/

/-- Strips leading whitespace characters from a character list. -/
def dropLeadingSpace : List Char → List Char
  | [] => []
  | c :: cs => if c.isWhitespace then dropLeadingSpace cs else c :: cs

/-- Python `str.strip()`: removes leading and trailing whitespace (the
handlers only rely on ASCII whitespace, where Python and
`Char.isWhitespace` agree). -/
def python_strip (s : String) : String :=
  ⟨(dropLeadingSpace (dropLeadingSpace s.data).reverse).reverse⟩

/-- The relevant shape of an incoming chat request body:
`request.get_json()` returned nothing falsy (`noJson`, covering a
missing/empty JSON body), a JSON object without a "text" field, or an
object with a string "text" field and an optional
"stream_chunk_size". -/
inductive ReqBody where
  | noJson
  | jsonWithoutText
  | jsonWithText (text : String) (stream_chunk_size : Option Nat)
deriving DecidableEq

/-- The observable response of a chat handler.
`badRequestMissingText` is the HTTP 400 for a missing "text" field,
`badRequestEmptyText` the HTTP 400 for text that is empty after
stripping; `serverError` is the catch-all HTTP 500 carrying the caught
exception; the remaining constructors are the success responses of the
three handlers. -/
inductive HandlerResponse where
  | badRequestMissingText
  | badRequestEmptyText
  | serverError (err : ChatOutcome)
  | fileResponse (ai_response : String)
  | jsonResponse (user_text ai_response : String)
  | streamResponse (ai_response : String) (estimated : Nat) (stream_chunk_size : Nat)
deriving DecidableEq

/-- A handler execution: the response plus whether the Gemini backend
(`chat_with_retry`) was invoked and whether speech synthesis was
invoked. -/
structure HandlerRun where
  response : HandlerResponse
  gemini_called : Bool
  tts_called : Bool
deriving DecidableEq

/-- `/api/chat` (`chat_and_speak`): validate, call `chat_with_retry`,
synthesize to a file, return it.  `gemini` is the outcome of the
`chat_with_retry` call on the stripped text. -/
def chat_and_speak (gemini : String → ChatOutcome) (body : ReqBody) : HandlerRun :=
  match body with
  | .noJson => ⟨.badRequestMissingText, false, false⟩
  | .jsonWithoutText => ⟨.badRequestMissingText, false, false⟩
  | .jsonWithText text _ =>
    let user_text := python_strip text
    if user_text = "" then ⟨.badRequestEmptyText, false, false⟩
    else
      match gemini user_text with
      | .reply ai_response => ⟨.fileResponse ai_response, true, true⟩
      | e => ⟨.serverError e, true, false⟩

/-- `/api/chat/json` (`chat_and_speak_json`): same validation, returns
a JSON document with the reply and audio path. -/
def chat_and_speak_json (gemini : String → ChatOutcome) (body : ReqBody) : HandlerRun :=
  match body with
  | .noJson => ⟨.badRequestMissingText, false, false⟩
  | .jsonWithoutText => ⟨.badRequestMissingText, false, false⟩
  | .jsonWithText text _ =>
    let user_text := python_strip text
    if user_text = "" then ⟨.badRequestEmptyText, false, false⟩
    else
      match gemini user_text with
      | .reply ai_response => ⟨.jsonResponse user_text ai_response, true, true⟩
      | e => ⟨.serverError e, true, false⟩

/-- `/api/chat/stream` (`chat_and_speak_stream`): same validation, then
computes the estimated chunk count and streams the synthesized
audio. -/
def chat_and_speak_stream (gemini : String → ChatOutcome) (body : ReqBody) : HandlerRun :=
  match body with
  | .noJson => ⟨.badRequestMissingText, false, false⟩
  | .jsonWithoutText => ⟨.badRequestMissingText, false, false⟩
  | .jsonWithText text scs =>
    let user_text := python_strip text
    let stream_chunk_size := scs.getD 20
    if user_text = "" then ⟨.badRequestEmptyText, false, false⟩
    else
      match gemini user_text with
      | .reply ai_response =>
        ⟨.streamResponse ai_response (estimated_chunks ai_response) stream_chunk_size,
          true, true⟩
      | e => ⟨.serverError e, true, false⟩

/-- C9: for every chat-endpoint request whose JSON body is missing, has
no "text" field, or whose "text" is empty after stripping whitespace,
each of the three chat handlers returns HTTP 400 with a validation
error, never invokes `chat_with_retry` and never invokes synthesis. -/
theorem chat_endpoints_validation (gemini : String → ChatOutcome)
    (text : String) (scs : Option Nat) (hempty : python_strip text = "") :
    chat_and_speak gemini .noJson = ⟨.badRequestMissingText, false, false⟩ ∧
    chat_and_speak gemini .jsonWithoutText = ⟨.badRequestMissingText, false, false⟩ ∧
    chat_and_speak gemini (.jsonWithText text scs) =
      ⟨.badRequestEmptyText, false, false⟩ ∧
    chat_and_speak_json gemini .noJson = ⟨.badRequestMissingText, false, false⟩ ∧
    chat_and_speak_json gemini .jsonWithoutText = ⟨.badRequestMissingText, false, false⟩ ∧
    chat_and_speak_json gemini (.jsonWithText text scs) =
      ⟨.badRequestEmptyText, false, false⟩ ∧
    chat_and_speak_stream gemini .noJson = ⟨.badRequestMissingText, false, false⟩ ∧
    chat_and_speak_stream gemini .jsonWithoutText = ⟨.badRequestMissingText, false, false⟩ ∧
    chat_and_speak_stream gemini (.jsonWithText text scs) =
      ⟨.badRequestEmptyText, false, false⟩ := by
  refine ⟨rfl, rfl, ?_, rfl, rfl, ?_, rfl, rfl, ?_⟩
  · simp [chat_and_speak, hempty]
  · simp [chat_and_speak_json, hempty]
  · simp [chat_and_speak_stream, hempty]

theorem chat_endpoints_validation_witness :
    python_strip "   " = "" ∧
    (chat_and_speak (fun _ => .reply "ok") .noJson =
      ⟨.badRequestMissingText, false, false⟩ ∧
    chat_and_speak (fun _ => .reply "ok") .jsonWithoutText =
      ⟨.badRequestMissingText, false, false⟩ ∧
    chat_and_speak (fun _ => .reply "ok") (.jsonWithText "   " (some 20)) =
      ⟨.badRequestEmptyText, false, false⟩ ∧
    chat_and_speak_json (fun _ => .reply "ok") .noJson =
      ⟨.badRequestMissingText, false, false⟩ ∧
    chat_and_speak_json (fun _ => .reply "ok") .jsonWithoutText =
      ⟨.badRequestMissingText, false, false⟩ ∧
    chat_and_speak_json (fun _ => .reply "ok") (.jsonWithText "   " (some 20)) =
      ⟨.badRequestEmptyText, false, false⟩ ∧
    chat_and_speak_stream (fun _ => .reply "ok") .noJson =
      ⟨.badRequestMissingText, false, false⟩ ∧
    chat_and_speak_stream (fun _ => .reply "ok") .jsonWithoutText =
      ⟨.badRequestMissingText, false, false⟩ ∧
    chat_and_speak_stream (fun _ => .reply "ok") (.jsonWithText "   " (some 20)) =
      ⟨.badRequestEmptyText, false, false⟩) :=
  ⟨by decide, chat_endpoints_validation (fun _ => .reply "ok") "   " (some 20) (by decide)⟩
